import Mathlib

/-!
Verification of the path-resolution and orchestration logic of
git-relevant-history (src/gitrelevanthistory/main.py).

The Python program is IO-heavy: every filesystem probe and every external
git invocation is modelled by a field of an environment record
(ResolverEnv / MainEnv) holding the result that call would return, and the
Lean functions replay the source control flow over those results.
Observable side effects (subprocess invocations with their exit codes,
warnings, the target-directory operations, writing and printing the spec
file) are collected in a chronological event trace.
-/

namespace GitRelevantHistory

/-- A Python value as passed for the glob flag parameter of
build_git_filter_path_spec: main passes either the boolean True (when the
glob flag is given) or the STRING "False" (the initial value assigned at
line 156 of main.py, which is never replaced by a boolean False). -/
inductive PyVal where
  | bool (b : Bool)
  | str (s : String)
  deriving DecidableEq

/-- Python truthiness of the values above: a string is truthy exactly when
it is non-empty. -/
def pyTruthy : PyVal → Bool
  | .bool b => b
  | .str s => !(s == "")

/-- Python str.strip() for whitespace, written structurally on the
character list so that it is kernel-reducible. -/
def pyStrip (s : String) : String :=
  String.mk (((s.data.dropWhile Char.isWhitespace).reverse.dropWhile
    Char.isWhitespace).reverse)

/-- The test str_subdir.endswith of a slash at line 49 of main.py. -/
def endsWithSlash (s : String) : Bool :=
  s.data.getLast? == some '/'

/-- Lines 48-50 of main.py: append a trailing separator when absent. -/
def withTrailingSlash (filter : String) : String :=
  if endsWithSlash filter then filter else filter ++ "/"

/-- Adding an element to a Python set modelled as an insertion-ordered
duplicate-free list; a no-op when the element is already present. -/
def insertNew (l : List String) (x : String) : List String :=
  if x ∈ l then l else l ++ [x]

/-- The contents of a Python set built from a list, as a list; the
unspecified iteration order of the set is modelled as first-insertion
order. -/
def dedup (l : List String) : List String := l.foldl insertNew []

/-- Lines 91-109 of main.py: the per-file set unique_paths_of_current_file,
seeded with the own repo-relative path of the file; every non-empty line of the
git log output is stripped and added. -/
def uniquePathsOfFile (repoPath : String) (logLines : List String) : List String :=
  logLines.foldl
    (fun acc line => if line.length > 0 then insertNew acc (pyStrip line) else acc)
    [repoPath]

/-- Lines 67-71 of main.py: glob patterns are read line by line and
stripped, until the first line that strips to empty (readline at end of
file returns the empty string, so end of file also stops the loop). -/
def globPatterns : List String → List String
  | [] => []
  | line :: rest =>
    if pyStrip line = "" then [] else pyStrip line :: globPatterns rest

/-- How a run terminates unsuccessfully: raise SystemExit(code), or an
uncaught Python exception (CalledProcessError from check_call or
check_output, IsADirectoryError from open); either way the process exits
non-zero. -/
inductive RunError where
  | systemExit (code : Int)
  | exception
  deriving DecidableEq

/-- The external commands the program invokes. -/
inductive CmdKind where
  | filterRepoProbe
  | clone
  | gitLogQuery
  | filterRepo
  | gitRm
  | checkout
  | dirtyCheck
  | commit
  deriving DecidableEq

/-- Observable events of a run, in chronological order. -/
inductive Event where
  | invoke (k : CmdKind) (exitCode : Nat)
  | warn (path : String)
  | queryTargetExists
  | writeSpecs (paths : List String)
  | printSpecs
  | targetRemove
  | targetMove
  deriving DecidableEq

/-- Results of the filesystem probes and git queries made by
build_git_filter_path_spec. Paths handed to and returned by the repository
probes are repo-relative strings (the Python code joins them to git_repo
and later strips that prefix again with relative_to). filterExists is the
result of the exists() probe on the raw filter argument at line 45;
filterIsDir tells whether that existing entry is a directory (in which
case the open() at line 61 raises). repoIsDir and repoRglobAll answer the
is_dir() and rglob probes of the subdirectory branch, filterFileLines are
the lines of the filter file, rglob answers a glob pattern query, isFile
is the per-entry is_file() probe, and gitLogExit with gitLogOut give the
exit code and output lines of the rename-following git log call. -/
structure ResolverEnv where
  filterExists : Bool
  filterIsDir : Bool
  repoIsDir : String → Bool
  repoRglobAll : String → List String
  filterFileLines : List String
  rglob : String → List String
  isFile : String → Bool
  gitLogExit : String → Nat
  gitLogOut : String → List String

/-- Lines 68-71 of main.py: the union loop over patterns, before the final
deduplication. -/
def globMatches (env : ResolverEnv) : List String → List String
  | [] => []
  | pat :: rest => env.rglob pat ++ globMatches env rest

/-- Lines 44-73 of main.py: the computation of init_files_list, up to but
not including the emptiness check at line 75. Exactly mirrors the source
dispatch: the subdirectory branch is taken when the filter path does not
exist at all; otherwise the filter is opened as a file (which raises when
it is a directory) and read either literally or as glob patterns,
according to the truthiness of glob_filter_list. -/
def initFilesList (env : ResolverEnv) (filter : String) (glob_filter_list : PyVal) :
    Except RunError (List String) :=
  if !env.filterExists then
    if env.repoIsDir (withTrailingSlash filter) then
      .ok (env.repoRglobAll (withTrailingSlash filter))
    else
      .error (.systemExit (-1))
  else
    if env.filterIsDir then
      .error .exception
    else if !(pyTruthy glob_filter_list) then
      .ok (env.filterFileLines.map pyStrip)
    else
      .ok (dedup (globMatches env (globPatterns env.filterFileLines)))

/-- Lines 83-119 of main.py: the per-file loop. Returns the accumulated
all_filter_paths list and the chronological events: one gitLogQuery
invocation per regular file, plus a warning when that query exits
non-zero. Note that in the source the extend of all_filter_paths happens
inside the try block, so a file whose query fails contributes no paths at
all; entries that are not regular files are skipped silently. -/
def resolveLoop (env : ResolverEnv) : List String → List String × List Event
  | [] => ([], [])
  | p :: rest =>
    if env.isFile p then
      if env.gitLogExit p = 0 then
        (uniquePathsOfFile p (env.gitLogOut p) ++ (resolveLoop env rest).1,
         Event.invoke .gitLogQuery (env.gitLogExit p) :: (resolveLoop env rest).2)
      else
        ((resolveLoop env rest).1,
         Event.invoke .gitLogQuery (env.gitLogExit p) :: Event.warn p ::
           (resolveLoop env rest).2)
    else resolveLoop env rest

/-- Lines 42-124 of main.py: build_git_filter_path_spec. On success the
pair (all_filter_paths, init_files_list) is returned together with the
subprocess events of the per-file loop; a failure happens before any
subprocess is spawned, so it carries no events. -/
def build_git_filter_path_spec (env : ResolverEnv) (filter : String)
    (glob_filter_list : PyVal) :
    Except RunError (List String × List String) × List Event :=
  match initFilesList env filter glob_filter_list with
  | .error e => (.error e, [])
  | .ok init =>
    if init.length = 0 then
      (.error (.systemExit (-1)), [])
    else
      (.ok ((resolveLoop env init).1, init), (resolveLoop env init).2)

/-- Results of the checks and external commands issued by main
(lines 127-269) beyond those already in ResolverEnv: the git filter-repo
version probe (none models FileNotFoundError, some c an exit code), the
source-directory checks, the CLI flags, the target existence probe, and
the exit codes of the clone, filter-repo, rm, per-file checkout,
diff-index and commit invocations. -/
structure MainEnv where
  filterRepoProbe : Option Nat
  sourceIsDir : Bool
  sourceHasGit : Bool
  onlySpecs : Bool
  force : Bool
  globFlag : Bool
  targetExists : Bool
  cloneExit : Nat
  resolver : ResolverEnv
  filter : String
  filterRepoExit : Nat
  gitRmExit : Nat
  checkoutExit : String → Nat
  dirtyExit : Nat
  commitExit : Nat

/-- Outcome of a run: normal return, or termination through SystemExit or
an uncaught exception. -/
inductive Outcome where
  | ok
  | err (e : RunError)
  deriving DecidableEq

/-- A finished run: its outcome and its chronological event trace. -/
structure MainResult where
  outcome : Outcome
  trace : List Event
  deriving DecidableEq

/-- Lines 156-158 of main.py: glob_filter_file is initialised to the
STRING "False"; the test then reads arguments["--glob"] or
arguments["-g"]. docopt stores the option declared as -g --glob under the
long name only, so when the flag is given the disjunction short-circuits
on the long key and the value becomes the boolean True, and when the flag
is absent the evaluation of arguments["-g"] raises an uncaught KeyError
and the run terminates there - before the target probe at line 161, the
clone and path resolution. -/
def globFilterArg (globFlag : Bool) : Except RunError PyVal :=
  if globFlag then .ok (.bool true) else .error .exception

/-- Lines 225-236 of main.py: one git checkout per entry of
init_files_list, each through check_call, so the first non-zero exit
raises and aborts the loop. Returns the invocation events and whether
every checkout succeeded. -/
def checkoutAll (env : MainEnv) : List String → List Event × Bool
  | [] => ([], true)
  | f :: rest =>
    if env.checkoutExit f = 0 then
      (Event.invoke .checkout (env.checkoutExit f) :: (checkoutAll env rest).1,
       (checkoutAll env rest).2)
    else ([Event.invoke .checkout (env.checkoutExit f)], false)

/-- Lines 262-269 of main.py: the final step re-probes target existence,
removes a pre-existing target with rmtree, and moves (shutil.move, not a
copy) the processed clone into place. -/
def finalMove (env : MainEnv) (t : List Event) : MainResult :=
  if env.targetExists then
    ⟨.ok, t ++ [Event.queryTargetExists, Event.targetRemove, Event.targetMove]⟩
  else
    ⟨.ok, t ++ [Event.queryTargetExists, Event.targetMove]⟩

/-- Lines 200-269 of main.py: filter-repo, the tree wipe, the per-file
restore, the dirty check and the conditional commit, then the final move.
All invocations but the dirty check use check_call (a non-zero exit raises
and aborts); the dirty check at line 248 uses subprocess.call and its raw
integer exit code is used as the truth value is_dirty, so any non-zero
exit selects the commit branch. -/
def reconcileAndMove (env : MainEnv) (init : List String) (t : List Event) : MainResult :=
  if env.filterRepoExit = 0 then
    if env.gitRmExit = 0 then
      if (checkoutAll env init).2 then
        if env.dirtyExit = 0 then
          finalMove env (t ++ [Event.invoke .filterRepo env.filterRepoExit,
            Event.invoke .gitRm env.gitRmExit] ++ (checkoutAll env init).1
            ++ [Event.invoke .dirtyCheck env.dirtyExit])
        else
          if env.commitExit = 0 then
            finalMove env (t ++ [Event.invoke .filterRepo env.filterRepoExit,
              Event.invoke .gitRm env.gitRmExit] ++ (checkoutAll env init).1
              ++ [Event.invoke .dirtyCheck env.dirtyExit,
                  Event.invoke .commit env.commitExit])
          else
            ⟨.err .exception, t ++ [Event.invoke .filterRepo env.filterRepoExit,
              Event.invoke .gitRm env.gitRmExit] ++ (checkoutAll env init).1
              ++ [Event.invoke .dirtyCheck env.dirtyExit,
                  Event.invoke .commit env.commitExit]⟩
      else
        ⟨.err .exception, t ++ [Event.invoke .filterRepo env.filterRepoExit,
          Event.invoke .gitRm env.gitRmExit] ++ (checkoutAll env init).1⟩
    else
      ⟨.err .exception, t ++ [Event.invoke .filterRepo env.filterRepoExit,
        Event.invoke .gitRm env.gitRmExit]⟩
  else
    ⟨.err .exception, t ++ [Event.invoke .filterRepo env.filterRepoExit]⟩

/-- Lines 127-269 of main.py: the git filter-repo probe (FileNotFoundError
is caught and turned into SystemExit, any non-zero exit of the probe
propagates as CalledProcessError), the source validations, the glob-flag
computation at lines 156-158 (whose KeyError aborts every run without the
glob flag), the target-overwrite guard at lines 160-166 (note the
existence probe is the left operand of the conjunction and therefore
always evaluated), the clone, path resolution, the spec-file write, the
only-specs early return with its print, and otherwise the reconcile phase
followed by the final move. -/
def mainRun (env : MainEnv) : MainResult :=
  match env.filterRepoProbe with
  | none => ⟨.err (.systemExit (-1)), []⟩
  | some c =>
    if c = 0 then
      if env.sourceIsDir then
        if env.sourceHasGit then
          match globFilterArg env.globFlag with
          | .error e => ⟨.err e, [Event.invoke .filterRepoProbe c]⟩
          | .ok g =>
            if env.targetExists && !env.onlySpecs && !env.force then
              ⟨.err (.systemExit (-1)),
                [Event.invoke .filterRepoProbe c, Event.queryTargetExists]⟩
            else
              if env.cloneExit = 0 then
                match build_git_filter_path_spec env.resolver env.filter g with
                | (.error e, evs) =>
                  ⟨.err e, [Event.invoke .filterRepoProbe c, Event.queryTargetExists,
                    Event.invoke .clone env.cloneExit] ++ evs⟩
                | (.ok r, evs) =>
                  if env.onlySpecs then
                    ⟨.ok, [Event.invoke .filterRepoProbe c, Event.queryTargetExists,
                      Event.invoke .clone env.cloneExit] ++ evs
                      ++ [Event.writeSpecs r.1, Event.printSpecs]⟩
                  else
                    reconcileAndMove env r.2
                      ([Event.invoke .filterRepoProbe c, Event.queryTargetExists,
                        Event.invoke .clone env.cloneExit] ++ evs
                        ++ [Event.writeSpecs r.1])
              else
                ⟨.err .exception, [Event.invoke .filterRepoProbe c,
                  Event.queryTargetExists, Event.invoke .clone env.cloneExit]⟩
        else ⟨.err (.systemExit (-1)), [Event.invoke .filterRepoProbe c]⟩
      else ⟨.err (.systemExit (-1)), [Event.invoke .filterRepoProbe c]⟩
    else ⟨.err .exception, [Event.invoke .filterRepoProbe c]⟩

/-- Tracked repository content: a list of (path, blob) pairs. -/
abbrev Tree := List (String × String)

/-- Whether the tracked file at path f is selected by pathspec p: p names
the file itself or an ancestor directory of it. This is how both git
checkout with a path argument and git filter-repo path specs select
files. -/
def underPath (p f : String) : Bool :=
  f == p || List.isPrefixOf (p ++ "/").data f.data

/-- The part of a tree selected by at least one of the given paths. -/
def restrictTree (t : Tree) (paths : List String) : Tree :=
  t.filter (fun fb => paths.any (fun p => underPath p fb.1))

/-- The state of the working clone relevant to the reconcile phase: the
tree at HEAD (after a clean checkout the staged index equals HEAD). -/
structure CloneState where
  head : Tree
  deriving DecidableEq

/-- The fixed commit message at line 256 of main.py. -/
def removeMsg : String := "Remove not directly related content from the repository"

/-- Lines 211-260 of main.py over the tree model: git rm -rf . empties the
index, one git checkout HEAD -- f per init entry restores from HEAD every
tracked file under f, so the staged index becomes the restriction of the
HEAD tree to the init paths. Per the external git contract, diff-index
--quiet --cached HEAD exits 0 exactly when that index equals the HEAD
tree; on a non-zero exit one commit with the fixed message is created,
making the index the new HEAD. -/
def reconcile (s : CloneState) (initFiles : List String) : CloneState × Option String :=
  if restrictTree s.head initFiles = s.head then (s, none)
  else (⟨restrictTree s.head initFiles⟩, some removeMsg)

/-- Lines 200-209 of main.py over the tree model: git filter-repo keeps
only the paths selected by the spec list, so its effect on the HEAD tree
is the restriction to those paths. -/
def filterRepo (s : CloneState) (specPaths : List String) : CloneState :=
  ⟨restrictTree s.head specPaths⟩

/-- One run of the rewrite-and-reconcile phase over the tree model. -/
def rewriteAndReconcile (s : CloneState) (specPaths initFiles : List String) :
    CloneState × Option String :=
  reconcile (filterRepo s specPaths) initFiles

/-- Events that create, remove or overwrite the target location. -/
def isTargetOp : Event → Bool
  | .targetRemove => true
  | .targetMove => true
  | _ => false

/-- Events that mutate the working clone or the target location. -/
def mutatesCloneOrTarget : Event → Bool
  | .invoke .filterRepo _ => true
  | .invoke .gitRm _ => true
  | .invoke .checkout _ => true
  | .invoke .commit _ => true
  | .targetRemove => true
  | .targetMove => true
  | _ => false

/-- The target operations of a completed non-specs-only run: remove a
pre-existing target, then move the clone into place. -/
def moveOps (env : MainEnv) : List Event :=
  if env.targetExists then [Event.targetRemove, Event.targetMove]
  else [Event.targetMove]

/-- The target operations the reconcile-and-move phase performs, per
outcome. -/
def outcomeTargetOps (env : MainEnv) (o : Outcome) : List Event :=
  match o with
  | .ok => moveOps env
  | .err _ => []

/-- The target operations a whole run performs, per outcome: none on any
error, none on a specs-only success, and the final remove-then-move
(or plain move) otherwise. -/
def expectedTargetOps (env : MainEnv) (o : Outcome) : List Event :=
  match o with
  | .ok => if env.onlySpecs then [] else moveOps env
  | .err _ => []



/-- A concrete resolver environment: the filter argument does not exist on
disk (subdirectory mode), the subdirectory exists but its recursive
listing is empty, and every git log query succeeds with empty output. -/
def renvBase : ResolverEnv :=
  { filterExists := false
    filterIsDir := false
    repoIsDir := fun _ => true
    repoRglobAll := fun _ => []
    filterFileLines := []
    rglob := fun _ => []
    isFile := fun _ => true
    gitLogExit := fun _ => 0
    gitLogOut := fun _ => [] }

/-- Run of claim C1: the filter names an existing regular file with the
single line deleted.txt, and no glob pattern matches anything on disk. -/
def renvC1 : ResolverEnv := { renvBase with
  filterExists := true
  filterFileLines := ["deleted.txt"] }

/-- Run of claim C2: two regular files f1 and f2 whose rename-following
histories both report the historical name old.txt. -/
def renvC2 : ResolverEnv := { renvBase with
  repoRglobAll := fun _ => ["f1", "f2"]
  gitLogOut := fun _ => ["old.txt"] }

/-- Run of claim C3: the rename-history query fails (exit 128) for a.txt
and succeeds for b.txt. -/
def renvC3 : ResolverEnv := { renvBase with
  repoRglobAll := fun _ => ["a.txt", "b.txt"]
  gitLogExit := fun p => if p == "a.txt" then 128 else 0 }

/-- Run of claim C4: the subdirectory listing holds a single entry d that
is not a regular file. -/
def renvC4 : ResolverEnv := { renvBase with
  repoRglobAll := fun _ => ["d"]
  isFile := fun _ => false }

/-- Run of claim C5: the filter argument exists on disk and is a
directory. -/
def renvC5 : ResolverEnv := { renvBase with
  filterExists := true
  filterIsDir := true
  repoRglobAll := fun _ => ["x"] }

/-- Witness run for the amended claim C5: subdirectory mode with a
one-entry listing. -/
def renvC5w : ResolverEnv := { renvBase with repoRglobAll := fun _ => ["x"] }

/-- A concrete main environment: every probe and external command
succeeds, no flag is set, the target does not exist, and the resolver is
renvBase (whose empty listing makes resolution fail). -/
def menvBase : MainEnv :=
  { filterRepoProbe := some 0
    sourceIsDir := true
    sourceHasGit := true
    onlySpecs := false
    force := false
    globFlag := false
    targetExists := false
    cloneExit := 0
    resolver := renvBase
    filter := "sub"
    filterRepoExit := 0
    gitRmExit := 0
    checkoutExit := fun _ => 0
    dirtyExit := 0
    commitExit := 0 }

/-- Run of claim C1: the glob flag is unset and the filter argument names
an existing file whose single line is deleted.txt. -/
def menvC1 : MainEnv := { menvBase with resolver := renvC1 }

/-- Run of claim C8: a specs-only run with the glob flag, against a
pre-existing target without the force flag, with one resolvable file. -/
def menvC8 : MainEnv := { menvBase with
  onlySpecs := true
  targetExists := true
  globFlag := true
  resolver := { renvBase with repoRglobAll := fun _ => ["a.txt"] } }

/-- Witness run for claim C9: the glob flag is given and the subdirectory
listing is empty, so resolution reaches the emptiness check and fails
there. -/
def menvC9 : MainEnv := { menvBase with globFlag := true }

/-- Run of claim C10: a glob-flag run where the rename-history query for
a.txt exits 128 while everything else succeeds. -/
def menvC10 : MainEnv := { menvBase with
  globFlag := true
  resolver := { renvBase with
    repoRglobAll := fun _ => ["a.txt", "b.txt"]
    gitLogExit := fun p => if p == "a.txt" then 128 else 0 } }

/-- Witness run for the amended claim C10: a glob-flag run where the
dirty check reports exit code 1 and everything else succeeds. -/
def menvC10w : MainEnv := { menvBase with
  globFlag := true
  dirtyExit := 1
  resolver := { renvBase with repoRglobAll := fun _ => ["a.txt"] } }

theorem list_filter_idem {α : Type} (p : α → Bool) (l : List α) :
    (l.filter p).filter p = l.filter p := by
  induction l with
  | nil => rfl
  | cons a l ih =>
    by_cases h : p a = true
    · simp [List.filter_cons, h, ih]
    · simp [List.filter_cons, h, ih]

theorem list_filter_comm {α : Type} (p q : α → Bool) (l : List α) :
    (l.filter p).filter q = (l.filter q).filter p := by
  induction l with
  | nil => rfl
  | cons a l ih =>
    by_cases hp : p a = true <;> by_cases hq : q a = true <;>
      simp [List.filter_cons, hp, hq, ih]

theorem restrictTree_idem (t : Tree) (paths : List String) :
    restrictTree (restrictTree t paths) paths = restrictTree t paths :=
  list_filter_idem _ t

theorem restrictTree_comm (t : Tree) (ps qs : List String) :
    restrictTree (restrictTree t ps) qs = restrictTree (restrictTree t qs) ps :=
  list_filter_comm _ _ t

theorem resolveLoop_append (env : ResolverEnv) (l1 l2 : List String) :
    resolveLoop env (l1 ++ l2)
      = ((resolveLoop env l1).1 ++ (resolveLoop env l2).1,
         (resolveLoop env l1).2 ++ (resolveLoop env l2).2) := by
  induction l1 with
  | nil => simp [resolveLoop]
  | cons p rest ih =>
    simp only [List.cons_append]
    by_cases h1 : env.isFile p = true
    · by_cases h2 : env.gitLogExit p = 0
      · simp [resolveLoop, h1, h2, ih]
      · simp [resolveLoop, h1, h2, ih]
    · simp [resolveLoop, h1, ih]

theorem resolveLoop_events (env : ResolverEnv) (l : List String) :
    ∀ e ∈ (resolveLoop env l).2,
      (∃ c, e = Event.invoke .gitLogQuery c) ∨ (∃ s, e = Event.warn s) := by
  induction l with
  | nil => simp [resolveLoop]
  | cons p rest ih =>
    by_cases h1 : env.isFile p = true
    · by_cases h2 : env.gitLogExit p = 0
      · intro e he
        simp [resolveLoop, h1, h2] at he
        rcases he with he | he
        · exact .inl ⟨_, he⟩
        · exact ih e he
      · intro e he
        simp [resolveLoop, h1, h2] at he
        rcases he with he | he | he
        · exact .inl ⟨_, he⟩
        · exact .inr ⟨_, he⟩
        · exact ih e he
    · intro e he
      simp [resolveLoop, h1] at he
      exact ih e he

theorem resolveLoop_filter (env : ResolverEnv) (q : Event → Bool)
    (hq1 : ∀ c, q (Event.invoke .gitLogQuery c) = false)
    (hq2 : ∀ s, q (Event.warn s) = false) (l : List String) :
    ((resolveLoop env l).2).filter q = [] := by
  rw [List.filter_eq_nil_iff]
  intro e he
  rcases resolveLoop_events env l e he with ⟨c, rfl⟩ | ⟨s, rfl⟩
  · simp [hq1]
  · simp [hq2]

theorem resolveLoop_invoke_kind (env : ResolverEnv) (l : List String) (k : CmdKind) (c : Nat)
    (h : Event.invoke k c ∈ (resolveLoop env l).2) : k = CmdKind.gitLogQuery := by
  rcases resolveLoop_events env l _ h with ⟨c2, he⟩ | ⟨s, he⟩
  · injection he with h1 h2
  · exact Event.noConfusion he

theorem checkoutAll_events (env : MainEnv) (l : List String) :
    ∀ e ∈ (checkoutAll env l).1, ∃ c, e = Event.invoke .checkout c := by
  induction l with
  | nil => simp [checkoutAll]
  | cons f rest ih =>
    by_cases h : env.checkoutExit f = 0
    · intro e he
      simp [checkoutAll, h] at he
      rcases he with he | he
      · exact ⟨_, he⟩
      · exact ih e he
    · intro e he
      simp [checkoutAll, h] at he
      exact ⟨_, he⟩

theorem checkoutAll_filter (env : MainEnv) (q : Event → Bool)
    (hq : ∀ c, q (Event.invoke .checkout c) = false) (l : List String) :
    ((checkoutAll env l).1).filter q = [] := by
  rw [List.filter_eq_nil_iff]
  intro e he
  rcases checkoutAll_events env l e he with ⟨c, rfl⟩
  simp [hq]

theorem checkoutAll_ok_exit (env : MainEnv) :
    ∀ l : List String, (checkoutAll env l).2 = true →
      ∀ e ∈ (checkoutAll env l).1, e = Event.invoke .checkout 0 := by
  intro l
  induction l with
  | nil => intro _; simp [checkoutAll]
  | cons f rest ih =>
    intro h e he
    by_cases hf : env.checkoutExit f = 0
    · simp [checkoutAll, hf] at h he
      rcases he with he | he
      · exact he
      · exact ih h e he
    · simp [checkoutAll, hf] at h

theorem build_error_events (env : ResolverEnv) (filter : String) (g : PyVal)
    (e : RunError) (evs : List Event)
    (h : build_git_filter_path_spec env filter g = (.error e, evs)) : evs = [] := by
  unfold build_git_filter_path_spec at h
  cases hi : initFilesList env filter g with
  | error e2 =>
    rw [hi] at h
    simp at h
    exact h.2
  | ok init =>
    rw [hi] at h
    by_cases hlen : init.length = 0
    · simp [hlen] at h
      exact h.2
    · simp [hlen] at h

theorem build_ok_spec (env : ResolverEnv) (filter : String) (g : PyVal)
    (r : List String × List String) (evs : List Event)
    (h : build_git_filter_path_spec env filter g = (.ok r, evs)) :
    evs = (resolveLoop env r.2).2 ∧ r.1 = (resolveLoop env r.2).1
      ∧ initFilesList env filter g = .ok r.2 ∧ r.2 ≠ [] := by
  unfold build_git_filter_path_spec at h
  cases hi : initFilesList env filter g with
  | error e2 =>
    rw [hi] at h
    simp at h
  | ok init =>
    rw [hi] at h
    by_cases hlen : init.length = 0
    · simp [hlen] at h
    · simp [hlen] at h
      obtain ⟨h1, h2⟩ := h
      have hr2 : r.2 = init := by rw [← h1]
      have hr1 : r.1 = (resolveLoop env init).1 := by rw [← h1]
      refine ⟨by rw [hr2, ← h2], by rw [hr1, hr2], by rw [hr2], ?_⟩
      rw [hr2]
      intro hnil
      exact hlen (by simp [hnil])

theorem finalMove_eq (env : MainEnv) (t : List Event) :
    finalMove env t = ⟨.ok, (t ++ [Event.queryTargetExists]) ++ moveOps env⟩ := by
  by_cases h : env.targetExists = true
  · simp [finalMove, moveOps, h]
  · simp [finalMove, moveOps, h]


theorem moveOps_no_invoke (env : MainEnv) (k : CmdKind) (c : Nat) :
    Event.invoke k c ∉ moveOps env := by
  by_cases h : env.targetExists = true <;> simp [moveOps, h]

theorem moveOps_mem (env : MainEnv) (e : Event) (he : e ∈ moveOps env) :
    e = Event.targetRemove ∨ e = Event.targetMove := by
  by_cases h : env.targetExists = true <;> simp [moveOps, h] at he <;> tauto

theorem reconcileAndMove_targetOps (env : MainEnv) (init : List String) (t : List Event)
    (ht : t.filter isTargetOp = []) :
    ∃ u, (reconcileAndMove env init t).trace
        = u ++ outcomeTargetOps env (reconcileAndMove env init t).outcome
      ∧ u.filter isTargetOp = [] := by
  have hco : ((checkoutAll env init).1).filter isTargetOp = [] :=
    checkoutAll_filter env isTargetOp (fun c => rfl) init
  by_cases h1 : env.filterRepoExit = 0
  · by_cases h2 : env.gitRmExit = 0
    · by_cases h3 : (checkoutAll env init).2 = true
      · by_cases h4 : env.dirtyExit = 0
        · refine ⟨(t ++ [Event.invoke .filterRepo env.filterRepoExit,
              Event.invoke .gitRm env.gitRmExit] ++ (checkoutAll env init).1
              ++ [Event.invoke .dirtyCheck env.dirtyExit]) ++ [Event.queryTargetExists], ?_, ?_⟩
          · simp [reconcileAndMove, h1, h2, h3, h4, finalMove_eq, outcomeTargetOps]
          · simp [List.filter_append, ht, hco, isTargetOp]
        · by_cases h5 : env.commitExit = 0
          · refine ⟨(t ++ [Event.invoke .filterRepo env.filterRepoExit,
                Event.invoke .gitRm env.gitRmExit] ++ (checkoutAll env init).1
                ++ [Event.invoke .dirtyCheck env.dirtyExit,
                    Event.invoke .commit env.commitExit]) ++ [Event.queryTargetExists], ?_, ?_⟩
            · simp [reconcileAndMove, h1, h2, h3, h4, h5, finalMove_eq, outcomeTargetOps]
            · simp [List.filter_append, ht, hco, isTargetOp]
          · refine ⟨t ++ [Event.invoke .filterRepo env.filterRepoExit,
                Event.invoke .gitRm env.gitRmExit] ++ (checkoutAll env init).1
                ++ [Event.invoke .dirtyCheck env.dirtyExit,
                    Event.invoke .commit env.commitExit], ?_, ?_⟩
            · simp [reconcileAndMove, h1, h2, h3, h4, h5, outcomeTargetOps]
            · simp [List.filter_append, ht, hco, isTargetOp]
      · refine ⟨t ++ [Event.invoke .filterRepo env.filterRepoExit,
            Event.invoke .gitRm env.gitRmExit] ++ (checkoutAll env init).1, ?_, ?_⟩
        · simp [reconcileAndMove, h1, h2, h3, outcomeTargetOps]
        · simp [List.filter_append, ht, hco, isTargetOp]
    · refine ⟨t ++ [Event.invoke .filterRepo env.filterRepoExit,
          Event.invoke .gitRm env.gitRmExit], ?_, ?_⟩
      · simp [reconcileAndMove, h1, h2, outcomeTargetOps]
      · simp [List.filter_append, ht, isTargetOp]
  · refine ⟨t ++ [Event.invoke .filterRepo env.filterRepoExit], ?_, ?_⟩
    · simp [reconcileAndMove, h1, outcomeTargetOps]
    · simp [List.filter_append, ht, isTargetOp]

theorem reconcileAndMove_invokes (env : MainEnv) (init : List String) (t : List Event)
    (hok : (reconcileAndMove env init t).outcome = .ok) :
    ∃ m, (reconcileAndMove env init t).trace = t ++ m
      ∧ (∀ k c, Event.invoke k c ∈ m → c ≠ 0 → k = CmdKind.dirtyCheck)
      ∧ Event.invoke .dirtyCheck env.dirtyExit ∈ m
      ∧ ((∃ c, Event.invoke .commit c ∈ m) ↔ env.dirtyExit ≠ 0) := by
  by_cases h1 : env.filterRepoExit = 0
  case neg => simp [reconcileAndMove, h1] at hok
  by_cases h2 : env.gitRmExit = 0
  case neg => simp [reconcileAndMove, h1, h2] at hok
  by_cases h3 : (checkoutAll env init).2 = true
  case neg => simp [reconcileAndMove, h1, h2, h3] at hok
  by_cases h4 : env.dirtyExit = 0
  · refine ⟨[Event.invoke .filterRepo env.filterRepoExit,
        Event.invoke .gitRm env.gitRmExit] ++ (checkoutAll env init).1
        ++ [Event.invoke .dirtyCheck env.dirtyExit, Event.queryTargetExists]
        ++ moveOps env, ?_, ?_, ?_, ?_⟩
    · simp [reconcileAndMove, h1, h2, h3, h4, finalMove_eq]
    · intro k c hkc hc
      rcases List.mem_append.mp hkc with he | he
      · rcases List.mem_append.mp he with he | he
        · rcases List.mem_append.mp he with he | he
          · rcases List.mem_cons.mp he with he | he
            · injection he with hk hc2
              exact absurd (hc2.trans h1) hc
            · rcases List.mem_cons.mp he with he | he
              · injection he with hk hc2
                exact absurd (hc2.trans h2) hc
              · exact absurd he (List.not_mem_nil _)
          · have h0 := checkoutAll_ok_exit env init h3 _ he
            injection h0 with hk hc2
            exact absurd hc2 hc
        · rcases List.mem_cons.mp he with he | he
          · injection he with hk hc2
          · rcases List.mem_cons.mp he with he | he
            · exact Event.noConfusion he
            · exact absurd he (List.not_mem_nil _)
      · exact absurd he (moveOps_no_invoke env k c)
    · simp [List.mem_append]
    · constructor
      · rintro ⟨c, hkc⟩
        rcases List.mem_append.mp hkc with he | he
        · rcases List.mem_append.mp he with he | he
          · rcases List.mem_append.mp he with he | he
            · rcases List.mem_cons.mp he with he | he
              · injection he with hk hc2
                exact CmdKind.noConfusion hk
              · rcases List.mem_cons.mp he with he | he
                · injection he with hk hc2
                  exact CmdKind.noConfusion hk
                · exact absurd he (List.not_mem_nil _)
            · have h0 := checkoutAll_ok_exit env init h3 _ he
              injection h0 with hk hc2
              exact CmdKind.noConfusion hk
          · rcases List.mem_cons.mp he with he | he
            · injection he with hk hc2
              exact CmdKind.noConfusion hk
            · rcases List.mem_cons.mp he with he | he
              · exact Event.noConfusion he
              · exact absurd he (List.not_mem_nil _)
        · exact absurd he (moveOps_no_invoke env .commit c)
      · intro hd
        exact absurd h4 hd
  · by_cases h5 : env.commitExit = 0
    case neg => simp [reconcileAndMove, h1, h2, h3, h4, h5] at hok
    refine ⟨[Event.invoke .filterRepo env.filterRepoExit,
        Event.invoke .gitRm env.gitRmExit] ++ (checkoutAll env init).1
        ++ [Event.invoke .dirtyCheck env.dirtyExit, Event.invoke .commit env.commitExit,
            Event.queryTargetExists]
        ++ moveOps env, ?_, ?_, ?_, ?_⟩
    · simp [reconcileAndMove, h1, h2, h3, h4, h5, finalMove_eq]
    · intro k c hkc hc
      rcases List.mem_append.mp hkc with he | he
      · rcases List.mem_append.mp he with he | he
        · rcases List.mem_append.mp he with he | he
          · rcases List.mem_cons.mp he with he | he
            · injection he with hk hc2
              exact absurd (hc2.trans h1) hc
            · rcases List.mem_cons.mp he with he | he
              · injection he with hk hc2
                exact absurd (hc2.trans h2) hc
              · exact absurd he (List.not_mem_nil _)
          · have h0 := checkoutAll_ok_exit env init h3 _ he
            injection h0 with hk hc2
            exact absurd hc2 hc
        · rcases List.mem_cons.mp he with he | he
          · injection he with hk hc2
          · rcases List.mem_cons.mp he with he | he
            · injection he with hk hc2
              exact absurd (hc2.trans h5) hc
            · rcases List.mem_cons.mp he with he | he
              · exact Event.noConfusion he
              · exact absurd he (List.not_mem_nil _)
      · exact absurd he (moveOps_no_invoke env k c)
    · simp [List.mem_append]
    · constructor
      · intro _
        exact h4
      · intro _
        refine ⟨env.commitExit, ?_⟩
        apply List.mem_append.mpr
        refine .inl (List.mem_append.mpr (.inr ?_))
        simp


theorem insertNew_nodup (l : List String) (x : String) (h : l.Nodup) :
    (insertNew l x).Nodup := by
  unfold insertNew
  by_cases hx : x ∈ l
  · simp [hx, h]
  · simp [hx, List.nodup_append, h]

theorem uniquePathsOfFile_nodup (repoPath : String) (logLines : List String) :
    (uniquePathsOfFile repoPath logLines).Nodup := by
  unfold uniquePathsOfFile
  have key : ∀ (lines : List String) (acc : List String), acc.Nodup →
      (lines.foldl
        (fun acc2 line => if line.length > 0 then insertNew acc2 (pyStrip line) else acc2)
        acc).Nodup := by
    intro lines
    induction lines with
    | nil => intro acc h; simpa using h
    | cons a rest ih =>
      intro acc h
      simp only [List.foldl_cons]
      by_cases hl : a.length > 0
      · rw [if_pos hl]
        exact ih _ (insertNew_nodup _ _ h)
      · rw [if_neg hl]
        exact ih _ h
  exact key logLines [repoPath] (by simp)

/-- Claim C1 (code bug): the literal path-list reading never happens when
the glob flag is unset. The lookup of the short flag at line 157 raises
an uncaught KeyError (docopt stores the option -g --glob under --glob
only), so such a run terminates right after the source checks: the trace
ends at the tool probe, before the target probe, the clone and any path
resolution - the filter file is never opened. The last two conjuncts
record that even without the KeyError the claim could not hold: the
initialisation at line 156 is the truthy STRING "False", which would
select the glob branch, not the literal one. -/
theorem claim_C1_code_behavior :
    globFilterArg false = .error .exception
      ∧ (mainRun menvC1).outcome = .err .exception
      ∧ (mainRun menvC1).trace = [Event.invoke .filterRepoProbe 0]
      ∧ pyTruthy (PyVal.str "False") = true
      ∧ initFilesList renvC1 "flt" (PyVal.str "False")
          = initFilesList renvC1 "flt" (PyVal.bool true) :=
  ⟨rfl, rfl, rfl, rfl, rfl⟩

/-- Claim C2 counterexample: two files whose rename-following histories
both report the name old.txt make that name appear TWICE in the returned
collection, because the global accumulator is a list extended per file,
not a set union. -/
theorem claim_C2_counterexample :
    (build_git_filter_path_spec renvC2 "sub" (PyVal.bool true)).1
        = .ok (["f1", "old.txt", "f2", "old.txt"], ["f1", "f2"])
      ∧ (["f1", "old.txt", "f2", "old.txt"].count "old.txt") = 2 :=
  ⟨rfl, by decide⟩

/-- Claim C2 (amended): each per-file set is duplicate-free, but the
global result is the concatenation of the per-file sets (list extend), so
a path contributed by several files appears once per contributing file. -/
theorem claim_C2_amended (env : ResolverEnv) :
    (∀ l1 l2 : List String,
        (resolveLoop env (l1 ++ l2)).1
          = (resolveLoop env l1).1 ++ (resolveLoop env l2).1)
      ∧ (∀ p : String, (uniquePathsOfFile p (env.gitLogOut p)).Nodup)
      ∧ (∀ p : String, env.isFile p = true → env.gitLogExit p = 0 →
          (resolveLoop env [p]).1 = uniquePathsOfFile p (env.gitLogOut p)) := by
  refine ⟨fun l1 l2 => by rw [resolveLoop_append],
    fun p => uniquePathsOfFile_nodup p _, ?_⟩
  intro p hf hz
  simp [resolveLoop, hf, hz]

theorem claim_C2_amended_witness :
    (resolveLoop renvC2 (["f1"] ++ ["f2"])).1
        = (resolveLoop renvC2 ["f1"]).1 ++ (resolveLoop renvC2 ["f2"]).1
      ∧ (resolveLoop renvC2 ["f1"]).1 = uniquePathsOfFile "f1" (renvC2.gitLogOut "f1") :=
  ⟨(claim_C2_amended renvC2).1 ["f1"] ["f2"],
   (claim_C2_amended renvC2).2.2 "f1" rfl rfl⟩

/-- Claim C3 counterexample: the history query for a.txt fails with exit
128; a warning naming a.txt is emitted and resolution continues with
b.txt, but a.txt contributes nothing to the returned path collection, not
even its own seeded path, because the source extends the global list
inside the try block. -/
theorem claim_C3_counterexample :
    renvC3.isFile "a.txt" = true
      ∧ renvC3.gitLogExit "a.txt" = 128
      ∧ (build_git_filter_path_spec renvC3 "sub" (PyVal.bool true)).1
          = .ok (["b.txt"], ["a.txt", "b.txt"])
      ∧ Event.warn "a.txt" ∈ (build_git_filter_path_spec renvC3 "sub" (PyVal.bool true)).2
      ∧ ¬ ("a.txt" ∈ ["b.txt"]) :=
  ⟨rfl, rfl, rfl, by decide, by decide⟩

/-- Claim C3 (amended): when the rename-history query of a regular file p
exits non-zero, resolution logs a warning naming p and continues with the
remaining files unchanged, and p contributes nothing to the returned path
collection - the seeded current path is not merged, because the merge
sits inside the try block. -/
theorem claim_C3_amended (env : ResolverEnv) (l1 l2 : List String) (p : String)
    (hfile : env.isFile p = true) (hfail : env.gitLogExit p ≠ 0) :
    (resolveLoop env (l1 ++ p :: l2)).1 = (resolveLoop env (l1 ++ l2)).1
      ∧ (resolveLoop env (l1 ++ p :: l2)).2
        = (resolveLoop env l1).2
            ++ Event.invoke .gitLogQuery (env.gitLogExit p) :: Event.warn p ::
              (resolveLoop env l2).2 := by
  have h1 := resolveLoop_append env l1 (p :: l2)
  have h2 := resolveLoop_append env l1 l2
  have h3 : resolveLoop env (p :: l2)
      = ((resolveLoop env l2).1,
         Event.invoke .gitLogQuery (env.gitLogExit p) :: Event.warn p ::
           (resolveLoop env l2).2) := by
    simp [resolveLoop, hfile, hfail]
  constructor
  · simp [h1, h2, h3]
  · simp [h1, h3]

theorem claim_C3_amended_witness :
    (resolveLoop renvC3 (["b.txt"] ++ "a.txt" :: [])).1
        = (resolveLoop renvC3 (["b.txt"] ++ [])).1
      ∧ (resolveLoop renvC3 (["b.txt"] ++ "a.txt" :: [])).2
        = (resolveLoop renvC3 ["b.txt"]).2
            ++ Event.invoke .gitLogQuery (renvC3.gitLogExit "a.txt") :: Event.warn "a.txt" ::
              (resolveLoop renvC3 []).2 :=
  claim_C3_amended renvC3 ["b.txt"] [] "a.txt" rfl (by decide)

/-- Claim C4 counterexample: an InitialFileList holding a single directory
passes the non-emptiness check, the is_file test skips it, and
build_git_filter_path_spec returns successfully with an EMPTY resolved
path collection instead of terminating fatally. -/
theorem claim_C4_counterexample :
    renvC4.isFile "d" = false
      ∧ build_git_filter_path_spec renvC4 "sub" (PyVal.bool true)
          = (.ok ([], ["d"]), []) :=
  ⟨rfl, rfl⟩

/-- Claim C4 (amended): the fatal emptiness check guards InitialFileList,
not the returned path set: every successful return carries a non-empty
init_files_list (the second component), while the resolved path
collection itself may be empty. -/
theorem claim_C4_amended (env : ResolverEnv) (filter : String) (g : PyVal)
    (r : List String × List String) (evs : List Event)
    (h : build_git_filter_path_spec env filter g = (.ok r, evs)) :
    r.2 ≠ [] ∧ initFilesList env filter g = .ok r.2 :=
  ⟨(build_ok_spec env filter g r evs h).2.2.2,
   (build_ok_spec env filter g r evs h).2.2.1⟩

theorem claim_C4_amended_witness :
    (([], ["d"]) : List String × List String).2 ≠ []
      ∧ initFilesList renvC4 "sub" (PyVal.bool true)
          = .ok (([], ["d"]) : List String × List String).2 :=
  claim_C4_amended renvC4 "sub" (PyVal.bool true) ([], ["d"]) [] rfl

/-- Claim C5 counterexample: a filter argument naming an existing
DIRECTORY does not name an existing file, yet subdirectory mode is not
selected: the exists() probe sends it to the file branch, where open()
raises an uncaught exception instead of producing the recursive listing
the claim requires. -/
theorem claim_C5_counterexample :
    renvC5.filterExists = true
      ∧ renvC5.filterIsDir = true
      ∧ initFilesList renvC5 "sub" (PyVal.bool true) = .error .exception
      ∧ ¬ (initFilesList renvC5 "sub" (PyVal.bool true)
            = .ok (renvC5.repoRglobAll (withTrailingSlash "sub"))) :=
  ⟨rfl, rfl, rfl, fun h => Except.noConfusion h⟩

/-- Claim C5 (amended): subdirectory mode is selected exactly when the
filter argument does not exist on disk at all; in that mode the argument
receives a trailing separator when absent, the run exits fatally when the
joined path is not an existing directory, and otherwise InitialFileList
is the recursive listing of that directory. When the filter argument
exists but is a directory, the file branch is taken and open() raises an
uncaught exception. -/
theorem claim_C5_amended (env : ResolverEnv) (filter : String) (g : PyVal) :
    (env.filterExists = false →
        initFilesList env filter g
          = (if env.repoIsDir (withTrailingSlash filter)
             then .ok (env.repoRglobAll (withTrailingSlash filter))
             else .error (.systemExit (-1))))
      ∧ (env.filterExists = true → env.filterIsDir = true →
          initFilesList env filter g = .error .exception) := by
  constructor
  · intro h
    simp [initFilesList, h]
  · intro h1 h2
    simp [initFilesList, h1, h2]

theorem claim_C5_amended_witness :
    initFilesList renvC5w "sub" (PyVal.bool true)
      = (if renvC5w.repoIsDir (withTrailingSlash "sub")
         then .ok (renvC5w.repoRglobAll (withTrailingSlash "sub"))
         else .error (.systemExit (-1))) :=
  (claim_C5_amended renvC5w "sub" (PyVal.bool true)).1 rfl

/-- Claim C6: after the wipe and restore, exactly one commit carrying the
fixed message is created when the staged index differs from HEAD and none
when it equals HEAD; consequently running the rewrite-and-reconcile phase
a second time on the already-reconciled clone creates no second commit. -/
theorem claim_C6 (s : CloneState) (specPaths initFiles : List String) :
    ((rewriteAndReconcile s specPaths initFiles).2 = some removeMsg
        ↔ restrictTree (restrictTree s.head specPaths) initFiles
            ≠ restrictTree s.head specPaths)
      ∧ ((rewriteAndReconcile s specPaths initFiles).2 = none
        ↔ restrictTree (restrictTree s.head specPaths) initFiles
            = restrictTree s.head specPaths)
      ∧ (rewriteAndReconcile (rewriteAndReconcile s specPaths initFiles).1
          specPaths initFiles).2 = none := by
  by_cases h : restrictTree (restrictTree s.head specPaths) initFiles
      = restrictTree s.head specPaths
  · have e1 : rewriteAndReconcile s specPaths initFiles
        = (⟨restrictTree s.head specPaths⟩, none) := by
      simp [rewriteAndReconcile, reconcile, filterRepo, h]
    refine ⟨by simp [e1, h], by simp [e1, h], ?_⟩
    rw [e1]
    simp [rewriteAndReconcile, reconcile, filterRepo, restrictTree_idem, h]
  · have e1 : rewriteAndReconcile s specPaths initFiles
        = (⟨restrictTree (restrictTree s.head specPaths) initFiles⟩, some removeMsg) := by
      simp [rewriteAndReconcile, reconcile, filterRepo, h]
    refine ⟨by simp [e1, h], by simp [e1, h], ?_⟩
    rw [e1]
    have hB : restrictTree
        (restrictTree (restrictTree s.head specPaths) initFiles) specPaths
        = restrictTree (restrictTree s.head specPaths) initFiles := by
      rw [restrictTree_comm (restrictTree s.head specPaths) initFiles specPaths,
        restrictTree_idem]
    simp [rewriteAndReconcile, reconcile, filterRepo, hB, restrictTree_idem]

theorem claim_C6_witness :
    ((rewriteAndReconcile ⟨[("a", "x"), ("b", "y")]⟩ ["a"] ["a"]).2 = some removeMsg
        ↔ restrictTree
            (restrictTree (CloneState.mk [("a", "x"), ("b", "y")]).head ["a"]) ["a"]
            ≠ restrictTree (CloneState.mk [("a", "x"), ("b", "y")]).head ["a"])
      ∧ ((rewriteAndReconcile ⟨[("a", "x"), ("b", "y")]⟩ ["a"] ["a"]).2 = none
        ↔ restrictTree
            (restrictTree (CloneState.mk [("a", "x"), ("b", "y")]).head ["a"]) ["a"]
            = restrictTree (CloneState.mk [("a", "x"), ("b", "y")]).head ["a"])
      ∧ (rewriteAndReconcile
          (rewriteAndReconcile ⟨[("a", "x"), ("b", "y")]⟩ ["a"] ["a"]).1 ["a"] ["a"]).2
          = none :=
  claim_C6 ⟨[("a", "x"), ("b", "y")]⟩ ["a"] ["a"]


theorem expected_eq_outcomeTargetOps (env : MainEnv) (hos : env.onlySpecs = false)
    (o : Outcome) : expectedTargetOps env o = outcomeTargetOps env o := by
  cases o with
  | ok => simp [expectedTargetOps, outcomeTargetOps, hos]
  | err e => rfl

/-- Claim C7: the target location is touched only by the single final move
step: every run trace decomposes as a prefix free of target operations
followed by exactly the expected target operations - none on any error
outcome and none on a specs-only success, removal of the pre-existing
target followed by the move when the target exists, and a single move
otherwise. -/
theorem claim_C7 (env : MainEnv) :
    ∃ t, (mainRun env).trace = t ++ expectedTargetOps env (mainRun env).outcome
      ∧ t.filter isTargetOp = [] := by
  cases hp : env.filterRepoProbe with
  | none =>
    refine ⟨[], ?_, rfl⟩
    simp [mainRun, hp, expectedTargetOps]
  | some c =>
    by_cases hc : c = 0
    case neg =>
      refine ⟨[Event.invoke .filterRepoProbe c], ?_, ?_⟩
      · simp [mainRun, hp, hc, expectedTargetOps]
      · simp [isTargetOp]
    by_cases hsd : env.sourceIsDir = true
    case neg =>
      refine ⟨[Event.invoke .filterRepoProbe c], ?_, ?_⟩
      · simp [mainRun, hp, hc, hsd, expectedTargetOps]
      · simp [isTargetOp]
    by_cases hsg : env.sourceHasGit = true
    case neg =>
      refine ⟨[Event.invoke .filterRepoProbe c], ?_, ?_⟩
      · simp [mainRun, hp, hc, hsd, hsg, expectedTargetOps]
      · simp [isTargetOp]
    by_cases hgf : env.globFlag = true
    case neg =>
      refine ⟨[Event.invoke .filterRepoProbe c], ?_, ?_⟩
      · simp [mainRun, hp, hc, hsd, hsg, globFilterArg, hgf, expectedTargetOps]
      · simp [isTargetOp]
    by_cases hguard : (env.targetExists && !env.onlySpecs && !env.force) = true
    case pos =>
      refine ⟨[Event.invoke .filterRepoProbe c, Event.queryTargetExists], ?_, ?_⟩
      · simp [mainRun, hp, hc, hsd, hsg, globFilterArg, hgf, hguard, expectedTargetOps]
      · simp [isTargetOp]
    by_cases hclone : env.cloneExit = 0
    case neg =>
      refine ⟨[Event.invoke .filterRepoProbe c, Event.queryTargetExists,
          Event.invoke .clone env.cloneExit], ?_, ?_⟩
      · simp [mainRun, hp, hc, hsd, hsg, globFilterArg, hgf, hguard, hclone,
          expectedTargetOps]
      · simp [isTargetOp]
    rcases hb : build_git_filter_path_spec env.resolver env.filter (PyVal.bool true)
      with ⟨res, evs⟩
    have hevs : evs.filter isTargetOp = [] := by
      cases res with
      | error e =>
        rw [build_error_events env.resolver env.filter _ e evs hb]
        rfl
      | ok r =>
        rw [(build_ok_spec env.resolver env.filter _ r evs hb).1]
        exact resolveLoop_filter _ isTargetOp (fun _ => rfl) (fun _ => rfl) _
    cases res with
    | error e =>
      refine ⟨[Event.invoke .filterRepoProbe c, Event.queryTargetExists,
          Event.invoke .clone env.cloneExit] ++ evs, ?_, ?_⟩
      · simp [mainRun, hp, hc, hsd, hsg, globFilterArg, hgf, hguard, hclone, hb,
          expectedTargetOps]
      · simp [List.filter_append, hevs, isTargetOp]
    | ok r =>
      by_cases hos : env.onlySpecs = true
      · refine ⟨[Event.invoke .filterRepoProbe c, Event.queryTargetExists,
            Event.invoke .clone env.cloneExit] ++ evs
            ++ [Event.writeSpecs r.1, Event.printSpecs], ?_, ?_⟩
        · simp [mainRun, hp, hc, hsd, hsg, globFilterArg, hgf, hguard, hclone, hb,
            hos, expectedTargetOps]
        · simp [List.filter_append, hevs, isTargetOp]
      · have hos2 : env.onlySpecs = false := by simpa using hos
        have hg3 : (env.targetExists && !env.force) = false := by
          rcases ht : env.targetExists <;> rcases hf : env.force <;> simp_all
        have hmr : mainRun env = reconcileAndMove env r.2
            ([Event.invoke .filterRepoProbe c, Event.queryTargetExists,
              Event.invoke .clone env.cloneExit] ++ evs ++ [Event.writeSpecs r.1]) := by
          simp [mainRun, hp, hc, hsd, hsg, globFilterArg, hgf, hos2, hg3, hclone, hb]
        have hpre : ([Event.invoke .filterRepoProbe c, Event.queryTargetExists,
            Event.invoke .clone env.cloneExit] ++ evs
            ++ [Event.writeSpecs r.1]).filter isTargetOp = [] := by
          simp [List.filter_append, hevs, isTargetOp]
        obtain ⟨u, hu1, hu2⟩ := reconcileAndMove_targetOps env r.2 _ hpre
        refine ⟨u, ?_, hu2⟩
        rw [hmr, expected_eq_outcomeTargetOps env hos2]
        exact hu1

/-- Claim C8 counterexample: in a specs-only run the target location IS
probed for pre-existence: the exists() call at line 161 is the left
operand of the conjunction and is evaluated before the only-specs test,
even though the run then succeeds without touching the target. -/
theorem claim_C8_counterexample :
    menvC8.onlySpecs = true
      ∧ (mainRun menvC8).outcome = .ok
      ∧ Event.queryTargetExists ∈ (mainRun menvC8).trace :=
  ⟨rfl, rfl, by decide⟩

/-- Claim C8 (amended): a specs-only run that reaches resolution (the
glob flag given - without it the run crashes at the line-157 KeyError
first) stops with success immediately after writing and printing the
path-list artifact: the rewrite, wipe, restore, commit and every target
operation are skipped, and a pre-existing target without the force flag
is not an error; the target pre-existence probe, however, is still
performed (it appears in the trace: line 161 evaluates exists() before
consulting the only-specs flag). -/
theorem claim_C8_amended (env : MainEnv)
    (h1 : env.onlySpecs = true) (h2 : env.filterRepoProbe = some 0)
    (h3 : env.sourceIsDir = true) (h4 : env.sourceHasGit = true)
    (hg : env.globFlag = true) (h5 : env.cloneExit = 0)
    (r : List String × List String) (evs : List Event)
    (h6 : build_git_filter_path_spec env.resolver env.filter (PyVal.bool true)
        = (.ok r, evs)) :
    (mainRun env).outcome = .ok
      ∧ (mainRun env).trace
        = [Event.invoke .filterRepoProbe 0, Event.queryTargetExists,
            Event.invoke .clone env.cloneExit] ++ evs
            ++ [Event.writeSpecs r.1, Event.printSpecs]
      ∧ (mainRun env).trace.filter mutatesCloneOrTarget = [] := by
  have hevs : evs.filter mutatesCloneOrTarget = [] := by
    rw [(build_ok_spec env.resolver env.filter _ r evs h6).1]
    exact resolveLoop_filter _ mutatesCloneOrTarget (fun _ => rfl) (fun _ => rfl) _
  have hguard : (env.targetExists && !env.onlySpecs && !env.force) = false := by
    simp [h1]
  refine ⟨?_, ?_, ?_⟩
  · simp [mainRun, h2, h3, h4, globFilterArg, hg, h5, hguard, h6, h1]
  · simp [mainRun, h2, h3, h4, globFilterArg, hg, h5, hguard, h6, h1]
  · simp [mainRun, h2, h3, h4, globFilterArg, hg, h5, hguard, h6, h1,
      List.filter_append, hevs, mutatesCloneOrTarget]

theorem claim_C8_amended_witness :
    (mainRun menvC8).outcome = .ok
      ∧ (mainRun menvC8).trace
        = [Event.invoke .filterRepoProbe 0, Event.queryTargetExists,
            Event.invoke .clone menvC8.cloneExit] ++ [Event.invoke .gitLogQuery 0]
            ++ [Event.writeSpecs (["a.txt"] : List String), Event.printSpecs]
      ∧ (mainRun menvC8).trace.filter mutatesCloneOrTarget = [] :=
  claim_C8_amended menvC8 rfl rfl rfl rfl rfl rfl (["a.txt"], ["a.txt"])
    [Event.invoke .gitLogQuery 0] rfl

/-- Claim C9: a filter that resolves to an empty InitialFileList makes the
run terminate unsuccessfully (non-zero exit), with a trace containing no
clone-mutating invocation (filter-repo, rm, checkout, commit) and no
target operation. The hypothesis fixes the init list the reachable glob
path would compute; runs without the glob flag terminate even earlier, at
the line-157 KeyError, again with no mutation. -/
theorem claim_C9 (env : MainEnv)
    (h : initFilesList env.resolver env.filter (PyVal.bool true) = .ok []) :
    (mainRun env).outcome ≠ .ok
      ∧ (mainRun env).trace.filter mutatesCloneOrTarget = [] := by
  have hb : build_git_filter_path_spec env.resolver env.filter (PyVal.bool true)
      = (.error (.systemExit (-1)), []) := by
    unfold build_git_filter_path_spec
    rw [h]
    rfl
  cases hp : env.filterRepoProbe with
  | none => exact ⟨by simp [mainRun, hp], by simp [mainRun, hp]⟩
  | some c =>
    by_cases hc : c = 0
    case neg =>
      exact ⟨by simp [mainRun, hp, hc],
             by simp [mainRun, hp, hc, mutatesCloneOrTarget]⟩
    by_cases hsd : env.sourceIsDir = true
    case neg =>
      exact ⟨by simp [mainRun, hp, hc, hsd],
             by simp [mainRun, hp, hc, hsd, mutatesCloneOrTarget]⟩
    by_cases hsg : env.sourceHasGit = true
    case neg =>
      exact ⟨by simp [mainRun, hp, hc, hsd, hsg],
             by simp [mainRun, hp, hc, hsd, hsg, mutatesCloneOrTarget]⟩
    by_cases hgf : env.globFlag = true
    case neg =>
      exact ⟨by simp [mainRun, hp, hc, hsd, hsg, globFilterArg, hgf],
             by simp [mainRun, hp, hc, hsd, hsg, globFilterArg, hgf,
               mutatesCloneOrTarget]⟩
    by_cases hguard : (env.targetExists && !env.onlySpecs && !env.force) = true
    case pos =>
      exact ⟨by simp [mainRun, hp, hc, hsd, hsg, globFilterArg, hgf, hguard],
             by simp [mainRun, hp, hc, hsd, hsg, globFilterArg, hgf, hguard,
               mutatesCloneOrTarget]⟩
    by_cases hclone : env.cloneExit = 0
    case neg =>
      exact ⟨by simp [mainRun, hp, hc, hsd, hsg, globFilterArg, hgf, hguard, hclone],
             by simp [mainRun, hp, hc, hsd, hsg, globFilterArg, hgf, hguard, hclone,
               mutatesCloneOrTarget]⟩
    exact ⟨by simp [mainRun, hp, hc, hsd, hsg, globFilterArg, hgf, hguard, hclone, hb],
           by simp [mainRun, hp, hc, hsd, hsg, globFilterArg, hgf, hguard, hclone, hb,
             mutatesCloneOrTarget]⟩

theorem claim_C9_witness :
    (mainRun menvC9).outcome ≠ .ok
      ∧ (mainRun menvC9).trace.filter mutatesCloneOrTarget = [] :=
  claim_C9 menvC9 rfl

/-- Claim C10 counterexample: the dirty check is NOT the only external
invocation whose non-zero exit fails to abort the run: here a rename
history query exits 128 and the run still completes successfully. -/
theorem claim_C10_counterexample :
    (mainRun menvC10).outcome = .ok
      ∧ Event.invoke .gitLogQuery 128 ∈ (mainRun menvC10).trace
      ∧ CmdKind.gitLogQuery ≠ CmdKind.dirtyCheck :=
  ⟨rfl, by decide, by decide⟩

/-- Claim C10 (amended): the dirty check and the per-file rename-history
queries are the only external invocations whose non-zero exit does not
abort the run; in every successfully completing non-specs-only run the
dirty check is invoked, its raw exit code is used as the truth value, and
the commit is created exactly when that exit code is non-zero - including
exit codes that signal an error in the comparison itself. -/
theorem claim_C10_amended (env : MainEnv)
    (hok : (mainRun env).outcome = .ok) (hspecs : env.onlySpecs = false) :
    (∀ k c, Event.invoke k c ∈ (mainRun env).trace → c ≠ 0 →
        k = CmdKind.gitLogQuery ∨ k = CmdKind.dirtyCheck)
      ∧ Event.invoke .dirtyCheck env.dirtyExit ∈ (mainRun env).trace
      ∧ ((∃ c, Event.invoke .commit c ∈ (mainRun env).trace) ↔ env.dirtyExit ≠ 0) := by
  cases hp : env.filterRepoProbe with
  | none => simp [mainRun, hp] at hok
  | some c =>
    by_cases hc : c = 0
    case neg => simp [mainRun, hp, hc] at hok
    by_cases hsd : env.sourceIsDir = true
    case neg => simp [mainRun, hp, hc, hsd] at hok
    by_cases hsg : env.sourceHasGit = true
    case neg => simp [mainRun, hp, hc, hsd, hsg] at hok
    by_cases hgf : env.globFlag = true
    case neg => simp [mainRun, hp, hc, hsd, hsg, globFilterArg, hgf] at hok
    by_cases hguard : (env.targetExists && !env.onlySpecs && !env.force) = true
    case pos => simp [mainRun, hp, hc, hsd, hsg, globFilterArg, hgf, hguard] at hok
    by_cases hclone : env.cloneExit = 0
    case neg =>
      simp [mainRun, hp, hc, hsd, hsg, globFilterArg, hgf, hguard, hclone] at hok
    rcases hb : build_git_filter_path_spec env.resolver env.filter (PyVal.bool true)
      with ⟨res, evs⟩
    cases res with
    | error e =>
      simp [mainRun, hp, hc, hsd, hsg, globFilterArg, hgf, hguard, hclone, hb] at hok
    | ok r =>
      have hg3 : (env.targetExists && !env.force) = false := by
        rcases ht : env.targetExists <;> rcases hf : env.force <;> simp_all
      have hmr : mainRun env = reconcileAndMove env r.2
          ([Event.invoke .filterRepoProbe c, Event.queryTargetExists,
            Event.invoke .clone env.cloneExit] ++ evs ++ [Event.writeSpecs r.1]) := by
        simp [mainRun, hp, hc, hsd, hsg, globFilterArg, hgf, hspecs, hg3, hclone, hb]
      rw [hmr] at hok
      obtain ⟨m, hm1, hm2, hm3, hm4⟩ := reconcileAndMove_invokes env r.2 _ hok
      rw [hmr, hm1]
      have hkinds : ∀ k c2, Event.invoke k c2 ∈ evs → k = CmdKind.gitLogQuery := by
        intro k c2 hmem
        have hrw := (build_ok_spec env.resolver env.filter _ r evs hb).1
        rw [hrw] at hmem
        exact resolveLoop_invoke_kind _ _ _ _ hmem
      refine ⟨?_, ?_, ?_⟩
      · intro k c2 hmem hc2
        rcases List.mem_append.mp hmem with he | he
        · rcases List.mem_append.mp he with he | he
          · rcases List.mem_append.mp he with he | he
            · rcases List.mem_cons.mp he with he | he
              · injection he with hk hcc
                exact absurd (hcc.trans hc) hc2
              · rcases List.mem_cons.mp he with he | he
                · exact Event.noConfusion he
                · rcases List.mem_cons.mp he with he | he
                  · injection he with hk hcc
                    exact absurd (hcc.trans hclone) hc2
                  · exact absurd he (List.not_mem_nil _)
            · exact .inl (hkinds _ _ he)
          · rcases List.mem_cons.mp he with he | he
            · exact Event.noConfusion he
            · exact absurd he (List.not_mem_nil _)
        · exact .inr (hm2 _ _ he hc2)
      · exact List.mem_append.mpr (.inr hm3)
      · constructor
        · rintro ⟨c2, hmem⟩
          rcases List.mem_append.mp hmem with he | he
          · exfalso
            rcases List.mem_append.mp he with he | he
            · rcases List.mem_append.mp he with he | he
              · rcases List.mem_cons.mp he with he | he
                · injection he with hk hcc
                  exact CmdKind.noConfusion hk
                · rcases List.mem_cons.mp he with he | he
                  · exact Event.noConfusion he
                  · rcases List.mem_cons.mp he with he | he
                    · injection he with hk hcc
                      exact CmdKind.noConfusion hk
                    · exact absurd he (List.not_mem_nil _)
              · exact CmdKind.noConfusion (hkinds _ _ he)
            · rcases List.mem_cons.mp he with he | he
              · exact Event.noConfusion he
              · exact absurd he (List.not_mem_nil _)
          · exact hm4.mp ⟨c2, he⟩
        · intro hd
          obtain ⟨c2, hc2⟩ := hm4.mpr hd
          exact ⟨c2, List.mem_append.mpr (.inr hc2)⟩

theorem claim_C10_amended_witness :
    Event.invoke .dirtyCheck menvC10w.dirtyExit ∈ (mainRun menvC10w).trace :=
  (claim_C10_amended menvC10w rfl rfl).2.1

end GitRelevantHistory
